import Mathlib

/-!
Verification of the room-registry / chat-relay core of `src/main.rs` (the
"partage" server). The Rust code is shallowly embedded: the room map
(`HashMap<String, RoomState>`) becomes an association list with unique keys,
the membership `HashSet<String>` becomes a duplicate-free list, the `watch`
content channel becomes a plain `String` cell (it only ever holds the latest
value), and the per-room persister task's loop body becomes a pure step
function over its local `last_content` state plus the persisted row.
Fallible effects (the SQL write/delete, the out-of-bounds byte index in
`send_pong_frame`) are represented by `Option` / an explicit success flag.
-/

namespace Partage

/-- Membership + content of one room (`RoomState` in `main.rs`):
`users : Mutex<HashSet<String>>` as a duplicate-free list, and the current
value of the `watch` content channel. The broadcast sender carries no state
that matters here (subscribers only see later publishes), so it is not a
field; publishes are recorded in traces instead. -/
structure RoomState where
  users : List String
  content : String
deriving DecidableEq, Repr

/-- A fresh room, as built by `RoomState::new`: empty member set and
`watch::channel(String::new())`, i.e. empty content. -/
def RoomState.new : RoomState := { users := [], content := "" }

/-- The registry map `rooms : HashMap<String, RoomState>` as an association
list from room id to room state. -/
abbrev Registry := List (String × RoomState)

/-- `rooms.get(&id)` — the entry with the given key, if any. -/
def lookupRoom : Registry → String → Option RoomState
  | [], _ => none
  | p :: rooms, id => if p.1 = id then some p.2 else lookupRoom rooms id

/-- `rooms.contains_key(&id)`. -/
def containsRoom (rooms : Registry) (id : String) : Bool :=
  (lookupRoom rooms id).isSome

/-- `rooms.remove(&id)` — drop the entry with the given key. -/
def removeRoomEntry (rooms : Registry) (id : String) : Registry :=
  rooms.filter (fun p => p.1 ≠ id)

/-- Apply `f` to the room stored under `id` (in-place update through the
mutex-guarded entry). -/
def updateRoom (rooms : Registry) (id : String) (f : RoomState → RoomState) :
    Registry :=
  rooms.map (fun p => if p.1 = id then (p.1, f p.2) else p)

/-- `rooms.entry(ch).or_insert_with(|| RoomState::new(..))`: keep the map if
the key is present, otherwise insert a fresh room. -/
def getOrCreateRoom (rooms : Registry) (id : String) : Registry :=
  if containsRoom rooms id then rooms else rooms ++ [(id, RoomState.new)]

/-- `HashSet::insert` on the member set: a no-op when the name is already
present. -/
def insertUser (users : List String) (u : String) : List String :=
  if u ∈ users then users else u :: users

/-- `content_tx.send(v)`: the watch channel overwrites its value. -/
def set_content (r : RoomState) (v : String) : RoomState :=
  { r with content := v }

/-- Member count of room `id` after the `rooms.get(..).unwrap()` in
`remove_room` (0 if absent, but `remove_room` only reads it when present). -/
def usersLen (rooms : Registry) (id : String) : Nat :=
  ((lookupRoom rooms id).map (fun r => r.users.length)).getD 0

/-- `GET /api/rooms`: snapshot of `(id, member names)` per room. -/
def get_rooms (rooms : Registry) : List (String × List String) :=
  rooms.map (fun p => (p.1, p.2.users))

/-! ## Server→client events and their wire form -/

/-- `SocketMessageType` with its serde rename tags. -/
inductive SocketMessageType
  | Join
  | Leave
  | Message
  | Error
  | UpdateRoomsList
deriving DecidableEq, Repr

/-- The serde `rename` string of each variant. -/
def SocketMessageType.tag : SocketMessageType → String
  | .Join => "join"
  | .Leave => "leave"
  | .Message => "message"
  | .Error => "error"
  | .UpdateRoomsList => "update-rooms-list"

/-- `SocketMessage`: `value : Option<String>`, `username : String` (serde
default `String::new()`). -/
structure SocketMessage where
  message_type : SocketMessageType
  value : Option String
  username : String
deriving DecidableEq, Repr

/-- JSON object produced by serde for a `SocketMessage`, as an ordered field
list. The `value` field carries `skip_serializing_if = "Option::is_none"`,
the `username` field `skip_serializing_if = "String::is_empty"`. -/
def serializeSocketMessage (m : SocketMessage) : List (String × String) :=
  [("type", m.message_type.tag)]
    ++ (match m.value with
        | none => []
        | some v => [("value", v)])
    ++ (if m.username = "" then [] else [("username", m.username)])

/-! ## `remove_room` (DELETE /api/rooms/:room_id) -/

/-- Result of `remove_room` as seen by the HTTP client: `ok` is a 200 JSON
body, `err` is `CustomError` — always status 400 with body
`{"error": message}`. -/
inductive RemoveResult
  | ok (message : String)
  | err (message : String)
deriving DecidableEq, Repr

/-- `RemoveResult.err` is exactly the HTTP-400-with-error-body outcome. -/
def RemoveResult.isErr : RemoveResult → Bool
  | .ok _ => false
  | .err _ => true

/-- Everything `remove_room` leaves behind: the HTTP result, the registry
after the call, and the ids of the rooms that were sent an
`update-rooms-list` broadcast. -/
structure RemoveOutcome where
  result : RemoveResult
  rooms : Registry
  broadcasts : List String
deriving DecidableEq, Repr

/-- `remove_room` from `main.rs`, checks in source order. `dbConfigured`
models `state.db.is_some()`; `deleteOk` models whether the
`DELETE FROM rooms` query succeeds. -/
def remove_room (dbConfigured deleteOk : Bool) (rooms : Registry)
    (roomId : String) : RemoveOutcome :=
  if roomId = "general" then
    { result := .err "Cannot remove the default room."
      rooms := rooms, broadcasts := [] }
  else if ¬ containsRoom rooms roomId then
    { result := .ok "Room already removed."
      rooms := rooms, broadcasts := [] }
  else if rooms.length = 1 then
    { result := .err "Cannot remove the last room."
      rooms := rooms, broadcasts := [] }
  else if usersLen rooms roomId > 1 then
    { result := .err "Room has more than 1 user."
      rooms := rooms, broadcasts := [] }
  else
    let rooms' := removeRoomEntry rooms roomId
    if dbConfigured ∧ ¬ deleteOk then
      { result := .err "Failed to remove room from database."
        rooms := rooms', broadcasts := [] }
    else
      { result := .ok "Room removed."
        rooms := rooms', broadcasts := rooms'.map Prod.fst }

/-! ## The per-room content persister (`RoomState::new`'s spawned task) -/

/-- Local state of the persister loop for one room: `last_content` (the
loop-local variable) and the persisted row for this room (`none` = no row;
`update_room_content` is an `INSERT OR REPLACE`, so a successful write sets
the row to the written value). -/
structure PersisterState where
  lastContent : String
  persisted : Option String
deriving DecidableEq, Repr

/-- One debounce tick of the persister loop body: sample the watch channel
(`current`); if it differs from `last_content`, first assign
`last_content := current`, then attempt the database write (`writeOk` tells
whether `update_room_content` succeeds; on failure the error is only
logged). -/
def persisterTick (current : String) (writeOk : Bool) (st : PersisterState) :
    PersisterState :=
  if current ≠ st.lastContent then
    { lastContent := current
      persisted := if writeOk then some current else st.persisted }
  else st

/-! ## Liveness probe (`send_pong_frame`) -/

/-- `send_pong_frame`: the body indexes `b[0]` with no emptiness check, so
the empty frame panics (`none`); on a non-empty frame it replies with the
single binary frame `[0xA]` exactly when the first byte is `0x9`, and sends
nothing otherwise. The `some` payload lists the binary frames sent back. -/
def send_pong_frame (b : List Nat) : Option (List (List Nat)) :=
  match b with
  | [] => none
  | x :: _ => some (if x = 0x9 then [[0xA]] else [])

/-! ## Connection session: the join handshake (`handle_socket`) -/

/-- The parsed `Connect` join payload `{username, channel}`. -/
structure Connect where
  username : String
  channel : String
deriving DecidableEq, Repr

/-- Observable actions of a session, in program order: a text frame sent to
this client, a publish on a room's broadcast channel, and the registration
of this session's subscription (`tx.subscribe()`). -/
inductive Action
  | sendClient (m : SocketMessage)
  | publish (room : String) (m : SocketMessage)
  | subscribe (room : String)
deriving DecidableEq, Repr

/-- What the handshake leaves behind: the registry after it, the ordered
trace of observable actions, and whether the session goes on to spawn the
two relay loops (`Relaying`). -/
structure JoinOutcome where
  rooms : Registry
  trace : List Action
  relaying : Bool
deriving DecidableEq, Repr

/-- Handling of the first inbound text frame in `handle_socket`, lines
287–390. `parseResult` is the outcome of `serde_json::from_str::<Connect>`
on the frame's text. On parse failure: send one `Error "Invalid JSON"` and
`break`; `tx` is still `None`, so the function returns before subscribing
or publishing anything. On parse success: get-or-create the room, insert
the username into its member set, and read the current content — all under
the registry lock — then, if the username is non-empty, broadcast
`update-rooms-list` to every other room, send the joiner the content as a
`"Server"` message, subscribe, and publish the `Join` event; if the
username is empty, send `Error "Failed to connect to room!"` and return
(the inserted member is not removed). -/
def handleJoin (rooms : Registry) (parseResult : Option Connect) :
    JoinOutcome :=
  match parseResult with
  | none =>
    { rooms := rooms
      trace := [.sendClient ⟨.Error, some "Invalid JSON", ""⟩]
      relaying := false }
  | some c =>
    let rooms2 := updateRoom (getOrCreateRoom rooms c.channel) c.channel
      (fun r => { r with users := insertUser r.users c.username })
    let content := ((lookupRoom rooms2 c.channel).map RoomState.content).getD ""
    if c.username ≠ "" then
      { rooms := rooms2
        trace :=
          ((rooms2.filter (fun p => p.1 ≠ c.channel)).map
            (fun p => Action.publish p.1 ⟨.UpdateRoomsList, none, ""⟩))
          ++ [.sendClient ⟨.Message, some content, "Server"⟩,
              .subscribe c.channel,
              .publish c.channel ⟨.Join, none, c.username⟩]
        relaying := true }
    else
      { rooms := rooms2
        trace := [.sendClient ⟨.Error, some "Failed to connect to room!", ""⟩]
        relaying := false }

/-- `n` sessions in sequence joining with the same payload `c` (each runs
the handshake against the registry the previous one left). -/
def joinN (rooms : Registry) (c : Connect) : Nat → Registry
  | 0 => rooms
  | n + 1 => (handleJoin (joinN rooms c n) (some c)).rooms

/-! ## Basic lemmas about the registry operations -/

theorem mem_insertUser_self (l : List String) (u : String) : u ∈ insertUser l u := by
  by_cases h : u ∈ l <;> simp [insertUser, h]

theorem insertUser_nodup (l : List String) (u : String) (h : l.Nodup) :
    (insertUser l u).Nodup := by
  by_cases hm : u ∈ l <;> simp [insertUser, hm, h]

theorem lookupRoom_updateRoom_self (rooms : Registry) (id : String)
    (f : RoomState → RoomState) :
    lookupRoom (updateRoom rooms id f) id = (lookupRoom rooms id).map f := by
  induction rooms with
  | nil => rfl
  | cons p R ih =>
    by_cases h : p.1 = id
    · simp [updateRoom, lookupRoom, h]
    · simp only [updateRoom, List.map_cons, if_neg h, lookupRoom]
      simpa [updateRoom, if_neg h] using ih

theorem lookupRoom_append_of_none (R S : Registry) (id : String)
    (h : lookupRoom R id = none) : lookupRoom (R ++ S) id = lookupRoom S id := by
  induction R with
  | nil => rfl
  | cons p R ih =>
    by_cases hp : p.1 = id
    · simp [lookupRoom, hp] at h
    · simp only [lookupRoom, if_neg hp] at h
      simpa [lookupRoom, hp] using ih h

theorem lookupRoom_getOrCreateRoom_self (rooms : Registry) (id : String) :
    lookupRoom (getOrCreateRoom rooms id) id =
      some ((lookupRoom rooms id).getD RoomState.new) := by
  unfold getOrCreateRoom
  cases h : lookupRoom rooms id with
  | some r => simp [containsRoom, h]
  | none =>
    simp only [containsRoom, h, Option.isSome_none, Bool.false_eq_true, if_false,
      Option.getD_none]
    rw [lookupRoom_append_of_none _ _ _ h]
    simp [lookupRoom]

theorem handleJoin_rooms_eq (rooms : Registry) (c : Connect) :
    (handleJoin rooms (some c)).rooms =
      updateRoom (getOrCreateRoom rooms c.channel) c.channel
        (fun r => { r with users := insertUser r.users c.username }) := by
  by_cases h : c.username = "" <;> simp [handleJoin, h]

theorem lookupRoom_handleJoin (rooms : Registry) (c : Connect) :
    lookupRoom (handleJoin rooms (some c)).rooms c.channel =
      some { (lookupRoom rooms c.channel).getD RoomState.new with
             users := insertUser
               ((lookupRoom rooms c.channel).getD RoomState.new).users
               c.username } := by
  rw [handleJoin_rooms_eq, lookupRoom_updateRoom_self, lookupRoom_getOrCreateRoom_self]
  rfl

/-! ## C1: removing the sole remaining room -/

/-- C1. Whenever the registry holds exactly one room and the remove request
targets it, `remove_room` fails (status 400 with an `{error: ..}` body, the
only failure shape `CustomError` produces), the registry is unchanged, and
no broadcast is sent — whatever the room's id is, `"general"` included, and
whatever its member set is. -/
theorem remove_sole_room_fails_with_error (dbC delOk : Bool) (rooms : Registry)
    (r : String) (hc : containsRoom rooms r = true) (hlen : rooms.length = 1) :
    ∃ msg, (remove_room dbC delOk rooms r).result = .err msg ∧
      (remove_room dbC delOk rooms r).rooms = rooms ∧
      (remove_room dbC delOk rooms r).broadcasts = [] := by
  by_cases hg : r = "general"
  · exact ⟨"Cannot remove the default room.", by simp [remove_room, hg]⟩
  · exact ⟨"Cannot remove the last room.", by simp [remove_room, hg, hc, hlen]⟩

theorem remove_sole_room_fails_with_error_witness :
    containsRoom [("general", RoomState.new)] "general" = true ∧
    ([("general", RoomState.new)] : Registry).length = 1 ∧
    ∃ msg, (remove_room false true [("general", RoomState.new)] "general").result
        = .err msg ∧
      (remove_room false true [("general", RoomState.new)] "general").rooms
        = [("general", RoomState.new)] ∧
      (remove_room false true [("general", RoomState.new)] "general").broadcasts
        = [] :=
  ⟨by decide, by decide,
    remove_sole_room_fails_with_error false true [("general", RoomState.new)]
      "general" (by decide) (by decide)⟩

/-! ## C2: persister behavior on a failed write -/

/-- C2, counterexample. Start the persister with `last_content = ""` and no
persisted row, and let the room content be `"X"`. On the first tick the
write fails, yet `last_content` advances to `"X"` although `"X"` was never
successfully persisted; on the next tick — content unchanged, the write now
able to succeed — nothing is written at all. So the failed value is not
re-attempted, contradicting the claim. -/
theorem persister_failed_write_claim_refuted :
    (persisterTick "X" false ⟨"", none⟩).lastContent = "X" ∧
    (persisterTick "X" true (persisterTick "X" false ⟨"", none⟩)).persisted
      = none := by
  decide

/-- C2, amended. On a failed write the persisted row and the in-memory
content are untouched, but the persister's `last_content` record advances
anyway, so the very next tick — even with storage healthy again — does not
retry the failed value (it is skipped until the content changes again). -/
theorem persister_failed_write_advances (st : PersisterState) (current : String)
    (h : current ≠ st.lastContent) :
    (persisterTick current false st).persisted = st.persisted ∧
    (persisterTick current false st).lastContent = current ∧
    persisterTick current true (persisterTick current false st) =
      persisterTick current false st := by
  simp [persisterTick, h]

theorem persister_failed_write_advances_witness :
    ("X" : String) ≠ "Y" ∧
    (persisterTick "X" false ⟨"Y", some "Y"⟩).persisted = some "Y" ∧
    (persisterTick "X" false ⟨"Y", some "Y"⟩).lastContent = "X" ∧
    persisterTick "X" true (persisterTick "X" false ⟨"Y", some "Y"⟩) =
      persisterTick "X" false ⟨"Y", some "Y"⟩ :=
  ⟨by decide, persister_failed_write_advances ⟨"Y", some "Y"⟩ "X" (by decide)⟩

/-! ## C3: field omission in the serialized event -/

/-- C3, counterexample. The event the server sends a joiner of a fresh room
(`Message` from `"Server"` with `value = Some("")`) serializes with the
`value` field present and empty: `skip_serializing_if = "Option::is_none"`
does not skip `Some("")`. -/
theorem serialize_value_empty_string_present :
    serializeSocketMessage ⟨.Message, some "", "Server"⟩ =
      [("type", "message"), ("value", ""), ("username", "Server")] := by
  decide

/-- C3, amended. In the serialized JSON the `value` field is omitted exactly
when the value is absent (`None`) — an empty-string value is serialized —
while the `username` field is omitted exactly when the username is the
empty string. -/
theorem serialize_field_omission (m : SocketMessage) :
    ("value" ∈ (serializeSocketMessage m).map Prod.fst ↔ m.value ≠ none) ∧
    ("username" ∈ (serializeSocketMessage m).map Prod.fst ↔ m.username ≠ "") := by
  obtain ⟨t, v, u⟩ := m
  cases v <;> by_cases hu : u = "" <;> simp [serializeSocketMessage, hu]

/-! ## C4: malformed first text frame -/

/-- C4. When the first inbound text frame fails to parse as a `Connect`
payload, the session sends exactly one event — `Error "Invalid JSON"` — to
the client, the registry is untouched (no membership change), nothing is
published on any broadcast channel (no `Join`), no subscription is taken,
and the session never reaches `Relaying`. -/
theorem malformed_join_single_error_no_relaying (rooms : Registry) :
    handleJoin rooms none =
      { rooms := rooms
        trace := [.sendClient ⟨.Error, some "Invalid JSON", ""⟩]
        relaying := false } := rfl

/-! ## C5: joining repeatedly keeps one membership entry -/

theorem lookupRoom_cons_self (p : String × RoomState) (R : Registry) :
    lookupRoom (p :: R) p.1 = some p.2 := by
  simp [lookupRoom]

theorem lookupRoom_cons_ne (p : String × RoomState) (R : Registry) (id : String)
    (h : ¬ p.1 = id) : lookupRoom (p :: R) id = lookupRoom R id := by
  simp [lookupRoom, h]

theorem lookupRoom_eq_none_iff (rooms : Registry) (id : String) :
    lookupRoom rooms id = none ↔ id ∉ rooms.map Prod.fst := by
  induction rooms with
  | nil => simp [lookupRoom]
  | cons p R ih =>
    by_cases h : p.1 = id
    · subst h
      rw [lookupRoom_cons_self]
      simp
    · rw [lookupRoom_cons_ne _ _ _ h, List.map_cons]
      rw [ih]
      simp only [List.mem_cons, not_or]
      exact ⟨fun hn => ⟨fun he => h he.symm, hn⟩, fun hx => hx.2⟩

theorem lookupRoom_mem (rooms : Registry) (id : String) (r : RoomState)
    (h : lookupRoom rooms id = some r) : (id, r) ∈ rooms := by
  induction rooms with
  | nil => simp [lookupRoom] at h
  | cons p R ih =>
    by_cases hp : p.1 = id
    · subst hp
      rw [lookupRoom_cons_self, Option.some.injEq] at h
      subst h
      exact List.mem_cons_self ..
    · rw [lookupRoom_cons_ne _ _ _ hp] at h
      exact List.mem_cons_of_mem _ (ih h)

theorem keys_updateRoom (rooms : Registry) (id : String) (f : RoomState → RoomState) :
    (updateRoom rooms id f).map Prod.fst = rooms.map Prod.fst := by
  induction rooms with
  | nil => rfl
  | cons p R ih =>
    simp only [updateRoom, List.map_cons] at ih ⊢
    rw [ih]
    congr 1
    by_cases h : p.1 = id <;> simp [h]

theorem keys_getOrCreateRoom_nodup (rooms : Registry) (id : String)
    (h : (rooms.map Prod.fst).Nodup) :
    ((getOrCreateRoom rooms id).map Prod.fst).Nodup := by
  unfold getOrCreateRoom
  by_cases hc : containsRoom rooms id
  · simp [hc, h]
  · have hnone : lookupRoom rooms id = none := by
      cases hl : lookupRoom rooms id
      · rfl
      · simp [containsRoom, hl] at hc
    rw [if_neg hc, List.map_append]
    simp [List.nodup_append, h, (lookupRoom_eq_none_iff rooms id).mp hnone]

theorem usersNodup_handleJoin (rooms : Registry) (c : Connect)
    (h : ∀ p ∈ rooms, p.2.users.Nodup) :
    ∀ p ∈ (handleJoin rooms (some c)).rooms, p.2.users.Nodup := by
  rw [handleJoin_rooms_eq]
  have h' : ∀ q ∈ getOrCreateRoom rooms c.channel, q.2.users.Nodup := by
    intro q hq
    unfold getOrCreateRoom at hq
    by_cases hc : containsRoom rooms c.channel
    · exact h q (by rwa [if_pos hc] at hq)
    · rw [if_neg hc] at hq
      rcases List.mem_append.mp hq with hq | hq
      · exact h q hq
      · rw [List.mem_singleton.mp hq]
        simp [RoomState.new]
  intro p hp
  obtain ⟨q, hq, rfl⟩ := List.mem_map.mp hp
  by_cases hqc : q.1 = c.channel
  · simpa [hqc] using insertUser_nodup _ _ (h' q hq)
  · simpa [hqc] using h' q hq

theorem keys_handleJoin_nodup (rooms : Registry) (c : Connect)
    (h : (rooms.map Prod.fst).Nodup) :
    (((handleJoin rooms (some c)).rooms).map Prod.fst).Nodup := by
  rw [handleJoin_rooms_eq, keys_updateRoom]
  exact keys_getOrCreateRoom_nodup rooms c.channel h

theorem usersNodup_joinN (rooms : Registry) (c : Connect) (n : Nat)
    (hnd : ∀ p ∈ rooms, p.2.users.Nodup) :
    ∀ p ∈ joinN rooms c n, p.2.users.Nodup := by
  induction n with
  | zero => exact hnd
  | succ n ih => exact usersNodup_handleJoin _ _ ih

theorem keysNodup_joinN (rooms : Registry) (c : Connect) (n : Nat)
    (h : (rooms.map Prod.fst).Nodup) :
    ((joinN rooms c n).map Prod.fst).Nodup := by
  induction n with
  | zero => exact h
  | succ n ih => exact keys_handleJoin_nodup _ _ ih

theorem mem_iff_lookupRoom (rooms : Registry) (hk : (rooms.map Prod.fst).Nodup)
    (id : String) (r : RoomState) :
    (id, r) ∈ rooms ↔ lookupRoom rooms id = some r := by
  induction rooms with
  | nil => simp [lookupRoom]
  | cons p R ih =>
    simp only [List.map_cons, List.nodup_cons] at hk
    obtain ⟨hp, hR⟩ := hk
    by_cases h : p.1 = id
    · subst h
      rw [lookupRoom_cons_self]
      simp only [List.mem_cons, Option.some.injEq]
      constructor
      · rintro (h1 | h2)
        · exact (congrArg Prod.snd h1).symm
        · exact absurd (List.mem_map_of_mem Prod.fst h2) hp
      · rintro rfl
        exact Or.inl rfl
    · rw [lookupRoom_cons_ne _ _ _ h, List.mem_cons, ← ih hR]
      constructor
      · rintro (h1 | h2)
        · exact absurd (congrArg Prod.fst h1).symm h
        · exact h2
      · exact Or.inr

theorem lookupRoom_joinN (rooms : Registry) (c : Connect) (n : Nat) (hn : 1 ≤ n)
    (hnd : ∀ p ∈ rooms, p.2.users.Nodup) :
    ∃ r, lookupRoom (joinN rooms c n) c.channel = some r ∧
      c.username ∈ r.users ∧ r.users.Nodup := by
  obtain ⟨m, rfl⟩ : ∃ m, n = m + 1 := ⟨n - 1, by omega⟩
  refine ⟨_, lookupRoom_handleJoin (joinN rooms c m) c, mem_insertUser_self _ _, ?_⟩
  apply insertUser_nodup
  cases hl : lookupRoom (joinN rooms c m) c.channel with
  | none => simp [hl, RoomState.new]
  | some r =>
    simpa [hl] using usersNodup_joinN rooms c m hnd _ (lookupRoom_mem _ _ _ hl)

/-- C5. Starting from a registry satisfying the hash-map invariants (unique
room ids, duplicate-free member sets), after any positive number of joins
with the same valid payload, the `GET /api/rooms` listing has an entry for
the joined room, that entry shows the username exactly once, and the
entry's member list is unique for that room id. -/
theorem join_membership_exactly_once (rooms : Registry) (c : Connect) (n : Nat)
    (hn : 1 ≤ n) (_hu : c.username ≠ "")
    (hkeys : (rooms.map Prod.fst).Nodup)
    (hnd : ∀ p ∈ rooms, p.2.users.Nodup) :
    ∃ users,
      (c.channel, users) ∈ get_rooms (joinN rooms c n) ∧
      users.count c.username = 1 ∧
      ∀ us, (c.channel, us) ∈ get_rooms (joinN rooms c n) → us = users := by
  obtain ⟨r, hr, hmem, hndu⟩ := lookupRoom_joinN rooms c n hn hnd
  have hk : ((joinN rooms c n).map Prod.fst).Nodup := keysNodup_joinN rooms c n hkeys
  refine ⟨r.users, ?_, List.count_eq_one_of_mem hndu hmem, ?_⟩
  · exact List.mem_map.mpr ⟨(c.channel, r), (mem_iff_lookupRoom _ hk _ _).mpr hr, rfl⟩
  · intro us hus
    obtain ⟨p, hp, hpe⟩ := List.mem_map.mp hus
    have h1 : p.1 = c.channel := congrArg Prod.fst hpe
    have h2 : p.2.users = us := congrArg Prod.snd hpe
    have hp2 : (p.1, p.2) ∈ joinN rooms c n := hp
    rw [h1] at hp2
    have heq : some r = some p.2 := by
      rw [← hr]
      exact (mem_iff_lookupRoom _ hk _ _).mp hp2
    rw [← h2, ← Option.some.inj heq]

theorem join_membership_exactly_once_witness :
    ((["general"] : List String).Nodup ∧ ("alice" : String) ≠ "") ∧
    ∃ users,
      ("general", users)
          ∈ get_rooms (joinN [("general", RoomState.new)] ⟨"alice", "general"⟩ 3) ∧
      users.count "alice" = 1 ∧
      ∀ us, ("general", us)
          ∈ get_rooms (joinN [("general", RoomState.new)] ⟨"alice", "general"⟩ 3)
        → us = users :=
  ⟨⟨by decide, by decide⟩,
    join_membership_exactly_once [("general", RoomState.new)] ⟨"alice", "general"⟩ 3
      (by decide) (by decide) (by decide) (by decide)⟩

/-! ## C6: debounce coalesces to the latest value -/

/-- C6. If content `x` and then `y` are written to the room's watch channel
within one debounce interval, the tick that follows samples only `y`: with
the write succeeding, the persisted row becomes `y`, and the intermediate
value `x` (when distinct from `y`) is never the persisted value. -/
theorem debounce_persists_latest_only (r : RoomState) (st : PersisterState)
    (x y : String) (h : st.lastContent ≠ y) :
    (persisterTick (set_content (set_content r x) y).content true st).persisted
        = some y ∧
    (x ≠ y →
      (persisterTick (set_content (set_content r x) y).content true st).persisted
        ≠ some x) := by
  have hc : (set_content (set_content r x) y).content = y := rfl
  refine ⟨?_, ?_⟩
  · simp [hc, persisterTick, Ne.symm h]
  · intro hxy
    simp [hc, persisterTick, Ne.symm h, Ne.symm hxy]

theorem debounce_persists_latest_only_witness :
    (("" : String) ≠ "Y") ∧
    (persisterTick (set_content (set_content RoomState.new "X") "Y").content true
        ⟨"", none⟩).persisted = some "Y" ∧
    (("X" : String) ≠ "Y" →
      (persisterTick (set_content (set_content RoomState.new "X") "Y").content true
        ⟨"", none⟩).persisted ≠ some "X") :=
  ⟨by decide, debounce_persists_latest_only RoomState.new ⟨"", none⟩ "X" "Y" (by decide)⟩

/-! ## C7: what a successful join sends and in what order -/

theorem handleJoin_trace_eq (rooms : Registry) (c : Connect) (h : c.username ≠ "") :
    (handleJoin rooms (some c)).trace =
      ((updateRoom (getOrCreateRoom rooms c.channel) c.channel
          (fun r => { r with users := insertUser r.users c.username })).filter
            (fun p => p.1 ≠ c.channel)).map
        (fun p => Action.publish p.1 ⟨.UpdateRoomsList, none, ""⟩)
      ++ [.sendClient ⟨.Message,
            some (((lookupRoom rooms c.channel).map RoomState.content).getD ""),
            "Server"⟩,
          .subscribe c.channel,
          .publish c.channel ⟨.Join, none, c.username⟩] := by
  have hcontent :
      ((lookupRoom (updateRoom (getOrCreateRoom rooms c.channel) c.channel
          (fun r => { r with users := insertUser r.users c.username })) c.channel).map
            RoomState.content).getD ""
        = ((lookupRoom rooms c.channel).map RoomState.content).getD "" := by
    rw [lookupRoom_updateRoom_self, lookupRoom_getOrCreateRoom_self]
    cases hl : lookupRoom rooms c.channel <;> simp [hl, RoomState.new]
  simp only [handleJoin, if_pos h]
  rw [hcontent]

/-- C7. On a successful join (parseable payload, non-empty username) the
trace of the handshake contains a `Message` event to the joining client
authored `"Server"` whose value is the room's content at the moment of join
(`""` when the room did not yet exist), the session enters `Relaying`, and
the subscription to the room's broadcast channel is registered strictly
before the `Join` event is published on that channel — so the joiner's
subscription also observes its own `Join`. -/
theorem join_receives_content_and_subscribes_before_join_event
    (rooms : Registry) (c : Connect) (h : c.username ≠ "") :
    Action.sendClient
        ⟨.Message, some (((lookupRoom rooms c.channel).map RoomState.content).getD ""),
          "Server"⟩
      ∈ (handleJoin rooms (some c)).trace ∧
    (handleJoin rooms (some c)).relaying = true ∧
    ∃ i j : Nat, i < j ∧
      (handleJoin rooms (some c)).trace[i]? = some (Action.subscribe c.channel) ∧
      (handleJoin rooms (some c)).trace[j]? =
        some (Action.publish c.channel ⟨.Join, none, c.username⟩) := by
  have htr := handleJoin_trace_eq rooms c h
  set A := ((updateRoom (getOrCreateRoom rooms c.channel) c.channel
      (fun r => { r with users := insertUser r.users c.username })).filter
        (fun p => p.1 ≠ c.channel)).map
    (fun p => Action.publish p.1 ⟨.UpdateRoomsList, none, ""⟩) with hA
  refine ⟨?_, ?_, A.length + 1, A.length + 2, by omega, ?_, ?_⟩
  · rw [htr]; simp
  · simp [handleJoin, if_pos h]
  · rw [htr, List.getElem?_append_right (by omega)]
    simp
  · rw [htr, List.getElem?_append_right (by omega)]
    simp

theorem join_receives_content_and_subscribes_before_join_event_witness :
    (("carol" : String) ≠ "") ∧
    (Action.sendClient
        ⟨.Message,
          some (((lookupRoom [("general", RoomState.new)] "general").map
            RoomState.content).getD ""),
          "Server"⟩
      ∈ (handleJoin [("general", RoomState.new)] (some ⟨"carol", "general"⟩)).trace ∧
    (handleJoin [("general", RoomState.new)] (some ⟨"carol", "general"⟩)).relaying
        = true ∧
    ∃ i j : Nat, i < j ∧
      (handleJoin [("general", RoomState.new)] (some ⟨"carol", "general"⟩)).trace[i]?
        = some (Action.subscribe "general") ∧
      (handleJoin [("general", RoomState.new)] (some ⟨"carol", "general"⟩)).trace[j]?
        = some (Action.publish "general" ⟨.Join, none, "carol"⟩)) :=
  ⟨by decide,
    join_receives_content_and_subscribes_before_join_event
      [("general", RoomState.new)] ⟨"carol", "general"⟩ (by decide)⟩

/-! ## C8: the liveness-probe handler is not total -/

/-- C8. `send_pong_frame` indexes `b[0]` without a bounds check: on every
non-empty binary frame it sends back exactly the single frame `[0xA]` when
the first byte is `0x9` and nothing otherwise, but on the empty binary
frame the index is out of bounds and the handler has no defined result. -/
theorem pong_reply_iff_first_byte_ping :
    (∀ (x : Nat) (rest : List Nat),
      send_pong_frame (x :: rest) = some (if x = 0x9 then [[0xA]] else [])) ∧
    send_pong_frame [] = none :=
  ⟨fun _ _ => rfl, rfl⟩

/-! ## C9: empty-username join leaks a member -/

/-- C9. A parseable join payload with an empty username still creates the
target room (when absent) and inserts `""` into its member set before the
username check fires; the session then sends the
`"Failed to connect to room!"` error and returns without relaying — and
without removing the entry, so `""` stays in the room's membership. -/
theorem empty_username_join_pollutes_membership (rooms : Registry) (ch : String) :
    (handleJoin rooms (some ⟨"", ch⟩)).relaying = false ∧
    (handleJoin rooms (some ⟨"", ch⟩)).trace =
      [.sendClient ⟨.Error, some "Failed to connect to room!", ""⟩] ∧
    ∃ r, lookupRoom (handleJoin rooms (some ⟨"", ch⟩)).rooms ch = some r ∧
      "" ∈ r.users := by
  refine ⟨rfl, rfl, _, lookupRoom_handleJoin rooms ⟨"", ch⟩, mem_insertUser_self _ _⟩

/-! ## C10: room removal is not atomic on a failed database delete -/

/-- C10. With storage configured and the `DELETE FROM rooms` query failing,
a removable room (not `"general"`, present, not the last room, at most one
member) is removed from the in-memory registry, yet the caller gets the 400
error `"Failed to remove room from database."` and no surviving room is
sent an `update-rooms-list` broadcast. -/
theorem remove_room_db_delete_failure (rooms : Registry) (r : String)
    (hg : r ≠ "general") (hc : containsRoom rooms r = true)
    (hlen : rooms.length ≠ 1) (hu : usersLen rooms r ≤ 1) :
    remove_room true false rooms r =
      { result := .err "Failed to remove room from database."
        rooms := removeRoomEntry rooms r
        broadcasts := [] } := by
  simp [remove_room, hg, hc, hlen, Nat.not_lt.mpr hu]

theorem remove_room_db_delete_failure_witness :
    ("a" : String) ≠ "general" ∧
    containsRoom [("general", RoomState.new), ("a", RoomState.new)] "a" = true ∧
    ([("general", RoomState.new), ("a", RoomState.new)] : Registry).length ≠ 1 ∧
    usersLen [("general", RoomState.new), ("a", RoomState.new)] "a" ≤ 1 ∧
    remove_room true false [("general", RoomState.new), ("a", RoomState.new)] "a" =
      { result := .err "Failed to remove room from database."
        rooms := removeRoomEntry [("general", RoomState.new), ("a", RoomState.new)] "a"
        broadcasts := [] } :=
  ⟨by decide, by decide, by decide, by decide,
    remove_room_db_delete_failure [("general", RoomState.new), ("a", RoomState.new)]
      "a" (by decide) (by decide) (by decide) (by decide)⟩

end Partage
